import Mathlib

/-!
Verification development for the webhook-driven form renderer
(FormPage.tsx and the ChoiceField component).  The definitions below are a
shallow embedding of the TypeScript source: JavaScript strings become Lean
strings, JavaScript records become insertion-ordered association lists,
and the per-field validators, wizard navigation handlers, response parser
and submission payload builder are translated function by function.
-/

namespace FormApp

/-- Question type tags, from the Question interface in FormPage.tsx. -/
inductive QType where
  | choices
  | text
  | phone
  | email
  | rating
  | file
  | date
  | dropdown
  | image
  | consent
  | slider
deriving DecidableEq, Repr

/-- Model of a browser File object: name, MIME type, byte size, and the
base64 payload that FileReader.readAsDataURL would produce for its bytes
(the reader is a browser primitive; its output past the data-URL header is
treated as an opaque string). -/
structure FileData where
  name : String
  mime : String
  size : Nat
  contentB64 : String
deriving DecidableEq, Repr

/-- One question of the fetched schema (Question interface, FormPage.tsx).
The section field of the source is named sect because section is a Lean
keyword. -/
structure Question where
  id : String
  type : QType
  required : Bool := false
  multiple : Bool := false
  options : Option (List String) := none
  choices : Option (List String) := none
  maxRating : Option Nat := none
  maxSize : Option Nat := none
  min : Option Int := none
  max : Option Int := none
  step : Option Int := none
  sect : Option String := none
deriving DecidableEq, Repr

/-- The value stored for one question in the formData record:
string | string[] | number | File | File[] | null | boolean. -/
inductive AnswerValue where
  | str (s : String)
  | strs (l : List String)
  | num (n : Int)
  | oneFile (f : FileData)
  | files (l : List FileData)
  | nullV
  | boolV (b : Bool)
deriving DecidableEq, Repr

/-- JavaScript truthiness of an AnswerValue (arrays and File objects are
always truthy; empty string, 0, false and null are falsy). -/
def AnswerValue.truthy : AnswerValue → Bool
  | .str s => s ≠ ""
  | .strs _ => true
  | .num n => n ≠ 0
  | .oneFile _ => true
  | .files _ => true
  | .nullV => false
  | .boolV b => b

/-- Array.isArray on an AnswerValue. -/
def AnswerValue.isArr : AnswerValue → Bool
  | .strs _ => true
  | .files _ => true
  | _ => false

/-- The length property of an array AnswerValue (0 on non-arrays; only
read after an Array.isArray check in the source). -/
def AnswerValue.arrLen : AnswerValue → Nat
  | .strs l => l.length
  | .files l => l.length
  | _ => 0

/-! ## JavaScript record operations

The formData and validationErrors records are modelled as
insertion-ordered association lists.  A spread update at an existing key
replaces the value in place; at a fresh key it appends. -/

/-- Record lookup. -/
def recGet {α : Type} (m : List (String × α)) (k : String) : Option α :=
  (m.find? (fun p => p.1 = k)).map Prod.snd

/-- Record update, as in a spread with a computed key. -/
def recSet {α : Type} (m : List (String × α)) (k : String) (v : α) :
    List (String × α) :=
  if (m.find? (fun p => p.1 = k)).isSome then
    m.map (fun p => if p.1 = k then (k, v) else p)
  else
    m ++ [(k, v)]

/-- Record key deletion, as in the delete operator. -/
def recDel {α : Type} (m : List (String × α)) (k : String) : List (String × α) :=
  m.filter (fun p => p.1 ≠ k)

/-- The ordered key list of a record. -/
def recKeys {α : Type} (m : List (String × α)) : List String :=
  m.map Prod.fst

/-! ## String helpers mirroring the JavaScript operations used -/

/-- value.replace(/\D/g, "") : keep only decimal digits. -/
def stripNonDigits (s : String) : String :=
  ⟨s.data.filter Char.isDigit⟩

/-- digitsOnly.startsWith("0"). -/
def startsWithZero (s : String) : Bool :=
  match s.data with
  | '0' :: _ => true
  | _ => false

/-- Character-list version of the trim operation on strings. -/
def trimChars (l : List Char) : List Char :=
  ((l.dropWhile Char.isWhitespace).reverse.dropWhile Char.isWhitespace).reverse

/-- value.trim(). -/
def jsTrim (s : String) : String :=
  ⟨trimChars s.data⟩

/-- value.substring(n) : drop the first n characters. -/
def jsSubstringFrom (s : String) (n : Nat) : String :=
  ⟨s.data.drop n⟩

/-- v.startsWith(pre). -/
def strStartsWith (v pre : String) : Bool :=
  decide (v.data.take pre.data.length = pre.data)

/-- Substring containment on character lists, for the includes method. -/
def strContainsSub (hay sub : List Char) : Bool :=
  (List.range (hay.length + 1)).attach.any
    (fun i => decide ((hay.drop i.1).take sub.length = sub))

/-- hay.includes(sub) on strings. -/
def strIncludes (hay sub : String) : Bool :=
  strContainsSub hay.data sub.data

/-! ## Validators (FormPage.tsx) -/

/-- One character of the local or domain part of the email regex:
anything that is neither whitespace nor an at sign. -/
def emailAtomChar (c : Char) : Bool :=
  !c.isWhitespace && c != '@'

/-- Test of the email regex of the source: a nonempty run of
non-space-non-at characters, an at sign, then a nonempty run containing a
dot with nonempty text on both sides. -/
def emailRegexTest (s : String) : Bool :=
  match s.data.splitOn '@' with
  | [bef, aft] =>
    !bef.isEmpty && bef.all emailAtomChar &&
    !aft.isEmpty && aft.all emailAtomChar &&
    ((aft.drop 1).dropLast.contains '.')
  | _ => false

/-- Thai mobile number pattern: zero, then 6, 8 or 9, then eight more
digits (ten digits in total). -/
def thaiMobileTest (s : String) : Bool :=
  match s.data with
  | '0' :: c :: rest =>
    (c == '6' || c == '8' || c == '9') && rest.length == 8 && rest.all Char.isDigit
  | _ => false

/-- Thai landline pattern: zero, then a digit from 2 to 7, then seven more
digits (nine digits in total). -/
def thaiLandlineTest (s : String) : Bool :=
  match s.data with
  | '0' :: c :: rest =>
    ('2' ≤ c && c ≤ '7') && rest.length == 7 && rest.all Char.isDigit
  | _ => false

/-- validateQuestionValue of FormPage.tsx: format-only live validation for
email and phone questions (no required check). -/
def validateQuestionValue (q : Question) (value : String) : Option String :=
  match q.type with
  | .email =>
    if ¬ emailRegexTest value then some "รูปแบบอีเมลไม่ถูกต้อง" else none
  | .phone =>
    let digitsOnly := stripNonDigits value
    if digitsOnly.length = 0 ∧ 0 < value.length then
      some "กรุณากรอกเฉพาะตัวเลข"
    else if 10 < digitsOnly.length then
      some "เบอร์โทรต้องไม่เกิน 10 หลัก"
    else if 0 < digitsOnly.length ∧ ¬ startsWithZero digitsOnly then
      some "เบอร์โทรต้องเริ่มต้นด้วย 0"
    else if 9 ≤ digitsOnly.length ∧
        ¬ (thaiMobileTest digitsOnly || thaiLandlineTest digitsOnly) then
      some "รูปแบบเบอร์โทรไม่ถูกต้อง (เช่น 08x-xxx-xxxx หรือ 02-xxx-xxxx)"
    else none
  | _ => none

/-- The required-ness block of validateQuestion in FormPage.tsx. -/
def requiredCheck (q : Question) (value : AnswerValue) : Option String :=
  if ¬ q.required then none
  else if q.type = .choices ∧ q.multiple then
    if ¬ value.isArr ∨ value.arrLen = 0 then
      some "กรุณาเลือกอย่างน้อย 1 ตัวเลือก"
    else none
  else if q.type = .rating then
    match value with
    | .num n => if n = 0 then some "กรุณาให้คะแนน" else none
    | _ => some "กรุณาให้คะแนน"
  else if q.type = .file then
    if q.multiple then
      if ¬ value.isArr ∨ value.arrLen = 0 then
        some "กรุณาอัปโหลดไฟล์อย่างน้อย 1 ไฟล์"
      else none
    else
      if ¬ value.truthy then some "กรุณาอัปโหลดไฟล์" else none
  else if q.type = .consent then
    if value ≠ .boolV true then some "กรุณายอมรับข้อตกลง" else none
  else if q.type = .slider then
    match value with
    | .num _ => none
    | _ => some "กรุณาปรับค่า"
  else
    if ¬ value.truthy then some "กรุณากรอกข้อมูล" else none

/-- The email and phone format block of validateQuestion, run after the
required block; both only fire on a truthy string value. -/
def formatCheck (q : Question) (value : AnswerValue) : Option String :=
  match value with
  | .str s =>
    if q.type = .email ∧ s ≠ "" then
      if ¬ emailRegexTest s then some "รูปแบบอีเมลไม่ถูกต้อง" else none
    else if q.type = .phone ∧ s ≠ "" then
      let digitsOnly := stripNonDigits s
      if 10 < digitsOnly.length then
        some "เบอร์โทรต้องไม่เกิน 10 หลัก"
      else if ¬ (thaiMobileTest digitsOnly || thaiLandlineTest digitsOnly) then
        some "รูปแบบเบอร์โทรไม่ถูกต้อง (เช่น 08x-xxx-xxxx หรือ 02-xxx-xxxx)"
      else none
    else none
  | _ => none

/-- validateQuestion of FormPage.tsx, with the answer passed explicitly:
the required block returns first, then the format block. -/
def validateQuestion (q : Question) (value : AnswerValue) : Option String :=
  match requiredCheck q value with
  | some e => some e
  | none => formatCheck q value

/-! ## Answer initialization (fetchFormConfig, initialData block) -/

/-- The type-appropriate default stored for one question when a form
configuration loads. -/
def initAnswer (q : Question) : AnswerValue :=
  if q.type = .choices ∧ q.multiple then .strs []
  else if q.type = .rating then .num 0
  else if q.type = .file then (if q.multiple then .files [] else .nullV)
  else if q.type = .consent then .boolV false
  else if q.type = .slider then .num (q.min.getD 0)
  else .str ""

/-- The initial formData record built by iterating over the questions
(question identifiers are unique within a form definition, so successive
record assignments are the same as this map). -/
def initialData (qs : List Question) : List (String × AnswerValue) :=
  qs.map (fun q => (q.id, initAnswer q))

/-- The formData part of handleChange: a spread update at the identifier
of the question whose widget raised the change. -/
def handleChangeData (m : List (String × AnswerValue)) (qid : String)
    (v : AnswerValue) : List (String × AnswerValue) :=
  recSet m qid v

/-! ## Step-wizard navigation (single mode, no sections) -/

/-- The state the step wizard works on: the loaded questions, the answer
record, the validation-error record and the current question index. -/
structure WizardState where
  questions : List Question
  formData : List (String × AnswerValue)
  validationErrors : List (String × String)
  currentQuestionIndex : Nat
deriving DecidableEq, Repr

/-- Reading formData at a question identifier; a missing key is the
undefined value, which behaves like null in every validator branch. -/
def getAnswer (s : WizardState) (qid : String) : AnswerValue :=
  (recGet s.formData qid).getD .nullV

/-- validateCurrentQuestion of FormPage.tsx: validate the question at the
current index, record or clear its error, and report success.  The
out-of-range branch is unreachable in the page (the index is always
within the question list). -/
def validateCurrentQuestion (s : WizardState) : Bool × WizardState :=
  match s.questions[s.currentQuestionIndex]? with
  | none => (false, s)
  | some q =>
    match validateQuestion q (getAnswer s q.id) with
    | some e =>
      (false, { s with validationErrors := recSet s.validationErrors q.id e })
    | none =>
      (true, { s with validationErrors := recDel s.validationErrors q.id })

/-- handleNextQuestion of FormPage.tsx: validate, then advance only when
not already on the last question. -/
def handleNextQuestion (s : WizardState) : WizardState :=
  let r := validateCurrentQuestion s
  if ¬ r.1 then r.2
  else if r.2.currentQuestionIndex < r.2.questions.length - 1 then
    { r.2 with currentQuestionIndex := r.2.currentQuestionIndex + 1 }
  else r.2

/-- handlePrevQuestion of FormPage.tsx: decrement unconditionally except
at index zero; no validation runs. -/
def handlePrevQuestion (s : WizardState) : WizardState :=
  if 0 < s.currentQuestionIndex then
    { s with currentQuestionIndex := s.currentQuestionIndex - 1 }
  else s

/-- The next-or-submit button of the step wizard: on the last index the
button is wired to handleQuizSubmit (validate, then submit), otherwise to
handleNextQuestion.  The boolean reports whether handleSubmit was
invoked. -/
def stepNextButton (s : WizardState) : WizardState × Bool :=
  if s.currentQuestionIndex = s.questions.length - 1 then
    let r := validateCurrentQuestion s
    if r.1 then (r.2, true) else (r.2, false)
  else
    (handleNextQuestion s, false)

/-- The onClick handler of one progress dot: navigate to the clicked
index only when it lies strictly before the current index; otherwise do
nothing.  No validation runs in either case. -/
def dotClick (s : WizardState) (index : Nat) : WizardState :=
  if index < s.currentQuestionIndex then
    { s with currentQuestionIndex := index }
  else s

/-! ## Response parsing (fetchFormConfig) -/

/-- A parsed JSON object that may carry a questions list. -/
structure RawConfig where
  questions : Option (List Question)
deriving DecidableEq, Repr

/-- The JSON shapes the fetch handler distinguishes: an array (whose
elements may be null), a plain object, or a null body. -/
inductive RawResponse where
  | arrResp (items : List (Option RawConfig))
  | objResp (cfg : RawConfig)
  | nullResp
deriving DecidableEq, Repr

/-- The data extraction line: take the first array element when the
response is an array (undefined on an empty array), otherwise the
response itself. -/
def extractData : RawResponse → Option RawConfig
  | .arrResp items => (items.head?).getD none
  | .objResp c => some c
  | .nullResp => none

/-- The parse-and-check step of fetchFormConfig: fail with the invalid
configuration message when the extracted data is absent, has no
questions field, or has an empty question list. -/
def parseFormQuestions (r : RawResponse) : Except String (List Question) :=
  match extractData r with
  | none => .error "Invalid form configuration"
  | some d =>
    match d.questions with
    | none => .error "Invalid form configuration"
    | some qs =>
      if qs.length = 0 then .error "Invalid form configuration" else .ok qs

/-! ## Submission payload (handleSubmit, fileToBase64) -/

/-- A converted file answer in the outgoing payload. -/
structure FileRecord where
  filename : String
  mimeType : String
  size : Nat
  base64 : String
deriving DecidableEq, Repr

/-- fileToBase64: FileReader.readAsDataURL yields a data URL carrying the
MIME type and the base64 text of the bytes. -/
def fileToBase64 (f : FileData) : String :=
  "data:" ++ f.mime ++ ";base64," ++ f.contentB64

/-- The record built for one file in the answers-preparation loop. -/
def toFileRecord (f : FileData) : FileRecord :=
  { filename := f.name, mimeType := f.mime, size := f.size,
    base64 := fileToBase64 f }

/-- A value of the outgoing answers record: either an untouched answer or
a converted file record (or list of records). -/
inductive PayloadValue where
  | raw (v : AnswerValue)
  | fileRec (r : FileRecord)
  | fileRecs (l : List FileRecord)
deriving DecidableEq, Repr

/-- The per-answer conversion of the answers-preparation loop: a File
becomes one record, a nonempty array whose first element is a File
becomes a list of records, everything else passes through unchanged. -/
def convertAnswer (v : AnswerValue) : PayloadValue :=
  match v with
  | .oneFile f => .fileRec (toFileRecord f)
  | .files (f :: fs) => .fileRecs ((f :: fs).map toFileRecord)
  | v => .raw v

/-- The answers part of the submission payload. -/
def buildAnswersPayload (m : List (String × AnswerValue)) :
    List (String × PayloadValue) :=
  m.map (fun p => (p.1, convertAnswer p.2))

/-- Whether an answer holds at least one file. -/
def AnswerValue.holdsFile : AnswerValue → Bool
  | .oneFile _ => true
  | .files (_ :: _) => true
  | _ => false

/-- Whether a payload value still exposes a raw file object. -/
def PayloadValue.isRawFile : PayloadValue → Bool
  | .raw v => v.holdsFile
  | _ => false

/-! ## Submission outcome handling (handleSubmit control flow) -/

/-- The page-level states of FormPage.tsx. -/
inductive FormState where
  | loading
  | error
  | form
  | submitting
  | thankyou
deriving DecidableEq, Repr

/-- How the submission request can end. -/
inductive SubmitOutcome where
  | success
  | httpFailure
  | networkFailure
deriving DecidableEq, Repr

/-- Application state relevant to submission: the page state and the
answer record. -/
structure AppState where
  formState : FormState
  formData : List (String × AnswerValue)
deriving DecidableEq, Repr

/-- The tail of handleSubmit: a non-ok response throws, and the catch
block shows a transient toast and returns to the form state; success
moves to the thank-you state.  The answer record is never written. -/
def handleSubmitOutcome (s : AppState) (o : SubmitOutcome) :
    AppState × Option String :=
  match o with
  | .success => ({ s with formState := .thankyou }, none)
  | .httpFailure => ({ s with formState := .form }, some "Failed to submit form")
  | .networkFailure => ({ s with formState := .form }, some "Failed to submit form")

/-- handleSubmit end to end: enter the submitting state, then handle the
outcome of the request. -/
def submitFlow (s : AppState) (o : SubmitOutcome) : AppState × Option String :=
  handleSubmitOutcome { s with formState := .submitting } o

/-! ## File-size gate (file input onChange handler) -/

/-- The oversized-file search of the file input onChange handler: only
runs when a maximum size is configured (a JavaScript truthiness test, so
a configured 0 disables it), and finds the first selected file whose
byte size exceeds maxSize megabytes. -/
def fileSelectionOversized (q : Question) (selectedFiles : List FileData) :
    Option FileData :=
  match q.maxSize with
  | some m =>
    if m = 0 then none
    else selectedFiles.find? (fun f => m * 1024 * 1024 < f.size)
  | none => none

/-- Whether the onChange handler rejects the selection (shows the size
toast and returns without storing the files). -/
def fileSelectionRejected (q : Question) (selectedFiles : List FileData) : Bool :=
  (fileSelectionOversized q selectedFiles).isSome

/-! ## ChoiceField other-option handling (ChoiceField.tsx) -/

/-- The fixed synonym list OTHER_OPTIONS of ChoiceField.tsx. -/
def OTHER_OPTIONS : List String :=
  ["อื่นๆ", "อื่น ๆ", "อื่นๆ (โปรดระบุ)", "อื่น ๆ (โปรดระบุ)",
   "other", "Other", "Others", "อื่น"]

/-- The toLowerCase method, modelled characterwise on the data list. -/
def jsToLower (s : String) : String :=
  ⟨s.data.map Char.toLower⟩

/-- Whether an option label is an other variant: a case-insensitive
substring match against the synonym list. -/
def isOtherVariant (opt : String) : Bool :=
  OTHER_OPTIONS.any (fun other => strIncludes (jsToLower opt) (jsToLower other))

/-- The otherOption lookup of ChoiceField.tsx: the first option matching
an other variant. -/
def findOtherOption (options : List String) : Option String :=
  options.find? isOtherVariant

/-- handleOtherTextChange of ChoiceField.tsx, single-selection branch:
nonempty trimmed text is stored as the option label, a colon and a space,
then the trimmed text; blank text reverts to the bare label. -/
def handleOtherTextChange (otherOption : String) (text : String) : String :=
  if jsTrim text ≠ "" then otherOption ++ ": " ++ jsTrim text
  else otherOption

/-- getOtherText of ChoiceField.tsx: find the selected value starting
with the label and a colon, drop the label and the colon, and trim. -/
def getOtherText (otherOption : String) (selectedValues : List String) : String :=
  match selectedValues.find? (fun v => strStartsWith v (otherOption ++ ":")) with
  | some v => jsTrim (jsSubstringFrom v (otherOption.length + 1))
  | none => ""

/-! ## Helper lemmas -/

/-- A string of length zero is the empty string. -/
theorem eq_empty_of_length_zero {s : String} (h : s.length = 0) : s = "" := by
  cases s with
  | mk d =>
    cases d with
    | nil => rfl
    | cons c cs => simp [String.length] at h

/-- A string beginning with the data-URL header is never empty. -/
theorem dataUrl_ne_empty (x : String) : ("data:" ++ x) ≠ "" := by
  intro h
  have hd := congrArg String.data h
  rw [String.data_append] at hd
  simp at hd

/-- Updating a record at a key it already holds leaves the key list
unchanged. -/
theorem recKeys_recSet_of_mem {α : Type} (m : List (String × α)) (k : String)
    (v : α) (h : k ∈ recKeys m) : recKeys (recSet m k v) = recKeys m := by
  have hfind : (m.find? (fun p => p.1 = k)).isSome := by
    rw [List.find?_isSome]
    rcases List.mem_map.mp h with ⟨p, hp, hpk⟩
    exact ⟨p, hp, by simp [hpk]⟩
  unfold recSet
  rw [if_pos hfind]
  unfold recKeys
  rw [List.map_map]
  apply List.map_congr_left
  intro p _
  by_cases hpk : p.1 = k
  · simp [hpk]
  · simp [hpk]

/-- Folding record updates over keys the record already holds preserves
the key list. -/
theorem recKeys_foldl_recSet {α : Type} (updates : List (String × α))
    (m : List (String × α)) (base : List String) (hm : recKeys m = base)
    (hupd : ∀ u ∈ updates, u.1 ∈ base) :
    recKeys (updates.foldl (fun acc u => recSet acc u.1 u.2) m) = base := by
  induction updates generalizing m with
  | nil => simpa using hm
  | cons u us ih =>
    simp only [List.foldl_cons]
    apply ih
    · rw [recKeys_recSet_of_mem]
      · exact hm
      · rw [hm]; exact hupd u (List.mem_cons_self u us)
    · intro u' hu'
      exact hupd u' (List.mem_cons_of_mem _ hu')

/-! ## Claim theorems -/

/-- C5: in the submission payload, a file-holding answer is emitted as a
self-describing record (or list of records) carrying filename, MIME type,
numeric size and a non-empty base64 string, never as a raw file object,
and an answer holding no file passes through to the payload unchanged. -/
theorem c5_payload_file_conversion (m : List (String × AnswerValue))
    (k : String) (v : AnswerValue) (hmem : (k, v) ∈ m) :
    ((k, convertAnswer v) ∈ buildAnswersPayload m) ∧
    (v.holdsFile = false → convertAnswer v = .raw v) ∧
    ((convertAnswer v).isRawFile = false) ∧
    (∀ f, v = .oneFile f →
      convertAnswer v = .fileRec
        { filename := f.name, mimeType := f.mime, size := f.size,
          base64 := fileToBase64 f } ∧ fileToBase64 f ≠ "") ∧
    (∀ f fs, v = .files (f :: fs) →
      convertAnswer v = .fileRecs ((f :: fs).map toFileRecord) ∧
      ∀ r ∈ (f :: fs).map toFileRecord, r.base64 ≠ "") := by
  refine ⟨?_, ?_, ?_, ?_, ?_⟩
  · unfold buildAnswersPayload
    exact List.mem_map.mpr ⟨(k, v), hmem, rfl⟩
  · intro hnof
    cases v with
    | oneFile f => simp [AnswerValue.holdsFile] at hnof
    | files l =>
      cases l with
      | nil => rfl
      | cons f fs => simp [AnswerValue.holdsFile] at hnof
    | str s => rfl
    | strs l => rfl
    | num n => rfl
    | nullV => rfl
    | boolV b => rfl
  · cases v with
    | oneFile f => rfl
    | files l => cases l with
      | nil => rfl
      | cons f fs => rfl
    | str s => rfl
    | strs l => rfl
    | num n => rfl
    | nullV => rfl
    | boolV b => rfl
  · intro f hf
    subst hf
    exact ⟨rfl, dataUrl_ne_empty _⟩
  · intro f fs hf
    subst hf
    refine ⟨rfl, ?_⟩
    intro r hr
    rcases List.mem_map.mp hr with ⟨f', _, hf'⟩
    rw [← hf']
    exact dataUrl_ne_empty _

/-- C5 witness at a concrete answer record. -/
theorem c5_payload_file_conversion_witness :
    (("f", convertAnswer (.oneFile ⟨"a.txt", "text/plain", 3, "QUJD"⟩)) ∈
      buildAnswersPayload
        [("t", .str "hello"), ("f", .oneFile ⟨"a.txt", "text/plain", 3, "QUJD"⟩)]) ∧
    convertAnswer (AnswerValue.str "hello") = .raw (.str "hello") ∧
    (convertAnswer (.oneFile ⟨"a.txt", "text/plain", 3, "QUJD"⟩)).isRawFile = false := by
  have h := c5_payload_file_conversion
    [("t", .str "hello"), ("f", .oneFile ⟨"a.txt", "text/plain", 3, "QUJD"⟩)]
    "f" (.oneFile ⟨"a.txt", "text/plain", 3, "QUJD"⟩) (by simp)
  have h2 := c5_payload_file_conversion
    [("t", .str "hello"), ("f", .oneFile ⟨"a.txt", "text/plain", 3, "QUJD"⟩)]
    "t" (.str "hello") (by simp)
  exact ⟨h.1, h2.2.1 rfl, h.2.2.1⟩

/-- C6: with a configured positive maximum size in megabytes, the file
input rejects a selection exactly when some selected file has byte size
strictly above maxSize*1024*1024; at maxSize 5 a file of 5*1024*1024+1
bytes fails and one of exactly 5*1024*1024 bytes passes. -/
theorem c6_file_size_gate (q : Question) (m : Nat) (hm : q.maxSize = some m)
    (h0 : 0 < m) :
    (∀ fs : List FileData,
      fileSelectionRejected q fs = true ↔ ∃ f ∈ fs, m * 1024 * 1024 < f.size) ∧
    (∀ f : FileData,
      fileSelectionRejected q [f] = true ↔ m * 1024 * 1024 < f.size) ∧
    (m = 5 → ∀ nm mi cb,
      fileSelectionRejected q [⟨nm, mi, 5 * 1024 * 1024 + 1, cb⟩] = true ∧
      fileSelectionRejected q [⟨nm, mi, 5 * 1024 * 1024, cb⟩] = false) := by
  have hm0 : m ≠ 0 := by omega
  have hiff : ∀ fs : List FileData,
      fileSelectionRejected q fs = true ↔ ∃ f ∈ fs, m * 1024 * 1024 < f.size := by
    intro fs
    simp [fileSelectionRejected, fileSelectionOversized, hm, hm0,
      List.find?_isSome]
  refine ⟨hiff, ?_, ?_⟩
  · intro f
    rw [hiff [f]]
    simp
  · intro h5 nm mi cb
    subst h5
    constructor
    · rw [hiff [⟨nm, mi, 5 * 1024 * 1024 + 1, cb⟩]]
      refine ⟨⟨nm, mi, 5 * 1024 * 1024 + 1, cb⟩, List.mem_singleton_self _, ?_⟩
      simp
    · rw [← Bool.not_eq_true, hiff [⟨nm, mi, 5 * 1024 * 1024, cb⟩]]
      rintro ⟨f, hf, hsz⟩
      rw [List.mem_singleton] at hf
      subst hf
      simp at hsz

/-- C6 witness at a concrete file question with maxSize 5. -/
theorem c6_file_size_gate_witness :
    fileSelectionRejected { id := "f", type := .file, maxSize := some 5 }
      [⟨"big.bin", "application/octet-stream", 5 * 1024 * 1024 + 1, "QQ=="⟩] = true ∧
    fileSelectionRejected { id := "f", type := .file, maxSize := some 5 }
      [⟨"ok.bin", "application/octet-stream", 5 * 1024 * 1024, "QQ=="⟩] = false := by
  have h := c6_file_size_gate { id := "f", type := .file, maxSize := some 5 } 5
    rfl (by omega)
  exact ⟨(h.2.2 rfl "big.bin" "application/octet-stream" "QQ==").1,
         (h.2.2 rfl "ok.bin" "application/octet-stream" "QQ==").2⟩

/-- C7: the schema fetcher parses a successful response that is a bare
form-definition object (an object carrying the nested questions list) or
a single-element array wrapping one, and it signals the invalid
configuration error exactly when the extracted data is absent, lacks a
questions field, or has an empty question list. -/
theorem c7_fetch_parse :
    (∀ (c : RawConfig) (q : Question) (qs : List Question),
      c.questions = some (q :: qs) →
      parseFormQuestions (.objResp c) = .ok (q :: qs) ∧
      parseFormQuestions (.arrResp [some c]) = .ok (q :: qs)) ∧
    (∀ r : RawResponse,
      (∃ e, parseFormQuestions r = .error e) ↔
      (extractData r = none ∨
        ∃ d, extractData r = some d ∧
          (d.questions = none ∨ d.questions = some []))) := by
  constructor
  · intro c q qs hc
    constructor
    · simp [parseFormQuestions, extractData, hc]
    · simp [parseFormQuestions, extractData, hc]
  · intro r
    constructor
    · rintro ⟨e, he⟩
      cases hx : extractData r with
      | none => exact Or.inl rfl
      | some d =>
        cases hq : d.questions with
        | none => exact Or.inr ⟨d, rfl, Or.inl hq⟩
        | some qs =>
          cases qs with
          | nil => exact Or.inr ⟨d, rfl, Or.inr hq⟩
          | cons a as => simp [parseFormQuestions, hx, hq] at he
    · rintro (hx | ⟨d, hd, hq | hq⟩)
      · exact ⟨"Invalid form configuration", by simp [parseFormQuestions, hx]⟩
      · exact ⟨"Invalid form configuration", by simp [parseFormQuestions, hd, hq]⟩
      · exact ⟨"Invalid form configuration", by simp [parseFormQuestions, hd, hq]⟩

/-- C7 witness at concrete responses. -/
theorem c7_fetch_parse_witness :
    parseFormQuestions (.objResp ⟨some [{ id := "q1", type := .text }]⟩)
      = .ok [{ id := "q1", type := .text }] ∧
    parseFormQuestions (.arrResp [some ⟨some [{ id := "q1", type := .text }]⟩])
      = .ok [{ id := "q1", type := .text }] ∧
    (∃ e, parseFormQuestions (.objResp ⟨some []⟩) = .error e) := by
  have h := c7_fetch_parse
  refine ⟨(h.1 ⟨some [{ id := "q1", type := .text }]⟩
            { id := "q1", type := .text } [] rfl).1,
          (h.1 ⟨some [{ id := "q1", type := .text }]⟩
            { id := "q1", type := .text } [] rfl).2, ?_⟩
  exact (h.2 (.objResp ⟨some []⟩)).mpr (Or.inr ⟨⟨some []⟩, rfl, Or.inr rfl⟩)

/-- C8: a failed submission (network error or non-ok response) returns
the application to the editable form state with the answer record
unchanged and signals a transient error; a successful submission moves to
the terminal thank-you state, also without touching the answers. -/
theorem c8_submit_failure_keeps_answers (s : AppState) (o : SubmitOutcome) :
    (o ≠ .success →
      (submitFlow s o).1.formState = .form ∧
      (submitFlow s o).1.formData = s.formData ∧
      (submitFlow s o).2.isSome = true) ∧
    (o = .success →
      (submitFlow s o).1.formState = .thankyou ∧
      (submitFlow s o).1.formData = s.formData) := by
  cases o with
  | success => exact ⟨fun h => absurd rfl h, fun _ => ⟨rfl, rfl⟩⟩
  | httpFailure => exact ⟨fun _ => ⟨rfl, rfl, rfl⟩, fun h => by cases h⟩
  | networkFailure => exact ⟨fun _ => ⟨rfl, rfl, rfl⟩, fun h => by cases h⟩

/-- C8 witness at a concrete application state. -/
theorem c8_submit_failure_keeps_answers_witness :
    (submitFlow ⟨.form, [("a", .str "x")]⟩ .httpFailure).1.formState = .form ∧
    (submitFlow ⟨.form, [("a", .str "x")]⟩ .httpFailure).1.formData
      = [("a", .str "x")] ∧
    (submitFlow ⟨.form, [("a", .str "x")]⟩ .success).1.formState = .thankyou := by
  have h1 := (c8_submit_failure_keeps_answers ⟨.form, [("a", .str "x")]⟩
    .httpFailure).1 (by simp)
  have h2 := (c8_submit_failure_keeps_answers ⟨.form, [("a", .str "x")]⟩
    .success).2 rfl
  exact ⟨h1.1, h1.2.1, h2.1⟩

/-- Looking up a question identifier in the freshly initialized answer
record yields the default of that question (identifiers are unique within
a form definition). -/
theorem recGet_initialData (qs : List Question)
    (hnodup : (qs.map Question.id).Nodup) (q : Question) (hq : q ∈ qs) :
    recGet (initialData qs) q.id = some (initAnswer q) := by
  induction qs with
  | nil => cases hq
  | cons a as ih =>
    rcases List.mem_cons.mp hq with h | h
    · subst h
      simp [recGet, initialData]
    · have hne : ¬ a.id = q.id := by
        intro he
        have hmem : q.id ∈ as.map Question.id := List.mem_map_of_mem _ h
        rw [← he] at hmem
        exact (List.nodup_cons.mp hnodup).1 hmem
      have ih' := ih (List.nodup_cons.mp hnodup).2 h
      simpa [recGet, initialData, hne] using ih'

/-- C9: after a form definition loads, the answer record keys are exactly
the question identifiers, each initialized to its type-appropriate
default, and any sequence of answer updates at existing question
identifiers leaves the key set unchanged (never a superset or subset). -/
theorem c9_answer_keys_invariant (qs : List Question)
    (hnodup : (qs.map Question.id).Nodup)
    (updates : List (String × AnswerValue))
    (hupd : ∀ u ∈ updates, u.1 ∈ qs.map Question.id) :
    recKeys (initialData qs) = qs.map Question.id ∧
    (∀ q ∈ qs, recGet (initialData qs) q.id = some (
      if q.type = .choices ∧ q.multiple then .strs []
      else if q.type = .rating then .num 0
      else if q.type = .file then (if q.multiple then .files [] else .nullV)
      else if q.type = .consent then .boolV false
      else if q.type = .slider then .num (q.min.getD 0)
      else .str "")) ∧
    recKeys (updates.foldl (fun m u => handleChangeData m u.1 u.2)
      (initialData qs)) = qs.map Question.id := by
  have hkeys : recKeys (initialData qs) = qs.map Question.id := by
    simp [recKeys, initialData]
  refine ⟨hkeys, ?_, ?_⟩
  · intro q hq
    exact recGet_initialData qs hnodup q hq
  · simp only [handleChangeData]
    exact recKeys_foldl_recSet updates (initialData qs) _ hkeys hupd

/-- C9 witness at a concrete two-question definition with one update. -/
theorem c9_answer_keys_invariant_witness :
    recKeys (initialData
      [{ id := "t", type := .text }, { id := "r", type := .rating }])
      = ["t", "r"] ∧
    recKeys ([(("r" : String), AnswerValue.num 4)].foldl
      (fun m u => handleChangeData m u.1 u.2)
      (initialData
        [{ id := "t", type := .text }, { id := "r", type := .rating }]))
      = ["t", "r"] := by
  have h := c9_answer_keys_invariant
    [{ id := "t", type := .text }, { id := "r", type := .rating }]
    (by decide) [("r", .num 4)] (by decide)
  exact ⟨h.1, h.2.2⟩

/-- C10: a slider answer is initialized to the configured minimum (or 0)
and slider changes always store numbers, so validation of a numeric value
at a slider question never yields an error: the required branch is
unreachable even with required set. -/
theorem c10_slider_never_errors (q : Question) (hq : q.type = .slider)
    (hreq : q.required = true) :
    (∀ n : Int, validateQuestion q (.num n) = none) ∧
    initAnswer q = .num (q.min.getD 0) ∧
    (∀ ns : List Int,
      validateQuestion q
        (ns.foldl (fun _ j => AnswerValue.num j) (initAnswer q)) = none) := by
  have hnum : ∀ n : Int, validateQuestion q (.num n) = none := by
    intro n
    simp [validateQuestion, requiredCheck, formatCheck, hq]
  have hinit : initAnswer q = .num (q.min.getD 0) := by
    simp [initAnswer, hq]
  have aux : ∀ (l : List Int) (n : Int),
      ∃ k : Int, l.foldl (fun _ j => AnswerValue.num j) (AnswerValue.num n)
        = .num k := by
    intro l
    induction l with
    | nil => intro n; exact ⟨n, rfl⟩
    | cons a as ih => intro n; simpa using ih a
  refine ⟨hnum, hinit, ?_⟩
  intro ns
  rw [hinit]
  rcases aux ns (q.min.getD 0) with ⟨k, hk⟩
  rw [hk]
  exact hnum k

/-- C10 witness at a concrete required slider with minimum 2. -/
theorem c10_slider_never_errors_witness :
    validateQuestion
      { id := "s", type := .slider, required := true, min := some 2 }
      (.num 0) = none ∧
    initAnswer { id := "s", type := .slider, required := true, min := some 2 }
      = .num 2 := by
  have h := c10_slider_never_errors
    { id := "s", type := .slider, required := true, min := some 2 } rfl rfl
  exact ⟨h.1 0, h.2.1⟩

/-- C1: pressing next with an invalid current answer leaves the index
unchanged, does not submit, and from a clean error state populates
exactly one validation error keyed to the current question; pressing it
on the last index triggers submission instead of an index change; on
successful validation the index increments, clamped to the last index. -/
theorem c1_step_next (s : WizardState) (q : Question)
    (hq : s.questions[s.currentQuestionIndex]? = some q) :
    (∀ e, validateQuestion q (getAnswer s q.id) = some e →
      (stepNextButton s).1.currentQuestionIndex = s.currentQuestionIndex ∧
      (stepNextButton s).2 = false ∧
      (stepNextButton s).1.validationErrors = recSet s.validationErrors q.id e ∧
      (s.validationErrors = [] →
        (stepNextButton s).1.validationErrors = [(q.id, e)])) ∧
    (validateQuestion q (getAnswer s q.id) = none →
      (s.currentQuestionIndex = s.questions.length - 1 →
        (stepNextButton s).2 = true ∧
        (stepNextButton s).1.currentQuestionIndex = s.currentQuestionIndex) ∧
      (s.currentQuestionIndex < s.questions.length - 1 →
        (stepNextButton s).2 = false ∧
        (stepNextButton s).1.currentQuestionIndex = s.currentQuestionIndex + 1 ∧
        (stepNextButton s).1.currentQuestionIndex ≤ s.questions.length - 1)) := by
  constructor
  · intro e he
    have hv : validateCurrentQuestion s =
        (false, { s with validationErrors := recSet s.validationErrors q.id e }) := by
      simp [validateCurrentQuestion, hq, he]
    have hempty : s.validationErrors = [] →
        recSet s.validationErrors q.id e = [(q.id, e)] := by
      intro h0
      rw [h0]
      simp [recSet]
    have hstep : stepNextButton s =
        ({ s with validationErrors := recSet s.validationErrors q.id e }, false) := by
      by_cases hlast : s.currentQuestionIndex = s.questions.length - 1
      · simp [stepNextButton, if_pos hlast, hv]
      · simp [stepNextButton, if_neg hlast, handleNextQuestion, hv]
    rw [hstep]
    exact ⟨rfl, rfl, rfl, hempty⟩
  · intro hok
    have hv : validateCurrentQuestion s =
        (true, { s with validationErrors := recDel s.validationErrors q.id }) := by
      simp [validateCurrentQuestion, hq, hok]
    constructor
    · intro hlast
      have hstep : stepNextButton s =
          ({ s with validationErrors := recDel s.validationErrors q.id }, true) := by
        simp [stepNextButton, if_pos hlast, hv]
      rw [hstep]
      exact ⟨rfl, rfl⟩
    · intro hlt
      have hne : ¬ s.currentQuestionIndex = s.questions.length - 1 := by omega
      have hstep : stepNextButton s =
          ({ s with validationErrors := recDel s.validationErrors q.id,
                    currentQuestionIndex := s.currentQuestionIndex + 1 }, false) := by
        simp [stepNextButton, if_neg hne, handleNextQuestion, hv, hlt]
      rw [hstep]
      refine ⟨rfl, rfl, ?_⟩
      show s.currentQuestionIndex + 1 ≤ s.questions.length - 1
      omega

/-- C1 witness: a two-question wizard whose first question is required
and unanswered. -/
theorem c1_step_next_witness :
    (stepNextButton
      { questions := [{ id := "a", type := .text, required := true },
                      { id := "b", type := .text }],
        formData := [("a", .str ""), ("b", .str "")],
        validationErrors := [], currentQuestionIndex := 0 }).1.currentQuestionIndex
      = 0 ∧
    (stepNextButton
      { questions := [{ id := "a", type := .text, required := true },
                      { id := "b", type := .text }],
        formData := [("a", .str ""), ("b", .str "")],
        validationErrors := [], currentQuestionIndex := 0 }).2 = false ∧
    (stepNextButton
      { questions := [{ id := "a", type := .text, required := true },
                      { id := "b", type := .text }],
        formData := [("a", .str ""), ("b", .str "")],
        validationErrors := [], currentQuestionIndex := 0 }).1.validationErrors
      = [("a", "กรุณากรอกข้อมูล")] := by
  have h := (c1_step_next
    { questions := [{ id := "a", type := .text, required := true },
                    { id := "b", type := .text }],
      formData := [("a", .str ""), ("b", .str "")],
      validationErrors := [], currentQuestionIndex := 0 }
    { id := "a", type := .text, required := true } (by decide)).1
    "กรุณากรอกข้อมูล" (by decide)
  exact ⟨h.1, h.2.1, h.2.2.2 rfl⟩

/-- The length of a string is the length of its character data. -/
theorem string_length_data (s : String) : s.length = s.data.length := by
  cases s
  rfl

/-- Trimming ignores one leading space. -/
theorem trimChars_cons_space (l : List Char) :
    trimChars (' ' :: l) = trimChars l := by
  unfold trimChars
  rw [List.dropWhile_cons]
  simp [Char.isWhitespace]

/-- C2 counterexample: the empty string strips to a digit string that
does not start with the trunk digit 0, yet live phone validation accepts
the empty string, so the rejection clause quantified over every string
value fails at the empty string. -/
theorem c2_phone_validation_counterexample :
    validateQuestionValue { id := "p", type := QType.phone } "" = none ∧
    stripNonDigits "" = "" ∧
    startsWithZero (stripNonDigits "") = false :=
  ⟨rfl, rfl, rfl⟩

/-- C2 amended: for every phone question and every string value, live
validation strips non-digits and rejects when the digit count exceeds 10;
rejects every nonempty value whose digits do not start with the trunk
digit 0; and once at least 9 digits are present rejects unless the digits
match the mobile or the landline pattern; the three concrete examples
behave as stated. -/
theorem c2_phone_validation_amended (q : Question) (value : String)
    (hq : q.type = .phone) :
    (10 < (stripNonDigits value).length →
      (validateQuestionValue q value).isSome = true) ∧
    (value ≠ "" → startsWithZero (stripNonDigits value) = false →
      (validateQuestionValue q value).isSome = true) ∧
    (9 ≤ (stripNonDigits value).length →
      thaiMobileTest (stripNonDigits value) = false →
      thaiLandlineTest (stripNonDigits value) = false →
      (validateQuestionValue q value).isSome = true) ∧
    validateQuestionValue q "0812345678" = none ∧
    (validateQuestionValue q "1234567890").isSome = true ∧
    (validateQuestionValue q "081234567890123").isSome = true := by
  refine ⟨?_, ?_, ?_, ?_, ?_, ?_⟩
  · intro hlen
    simp only [validateQuestionValue, hq]
    split_ifs with h1 h2 h3 h4 <;> first | rfl | omega
  · intro hne hswz
    simp only [validateQuestionValue, hq]
    split_ifs with h1 h2 h3 h4
    · rfl
    · rfl
    · rfl
    · rfl
    · exfalso
      have hlen0 : (stripNonDigits value).length = 0 := by
        by_contra hpos
        exact h3 ⟨Nat.pos_of_ne_zero hpos, by simp [hswz]⟩
      have hvlen : value.length = 0 := by
        by_contra hv
        exact h1 ⟨hlen0, Nat.pos_of_ne_zero hv⟩
      exact hne (eq_empty_of_length_zero hvlen)
  · intro h9 hm hl
    simp only [validateQuestionValue, hq]
    split_ifs with h1 h2 h3 h4
    · rfl
    · rfl
    · rfl
    · rfl
    · exact absurd ⟨h9, by simp [hm, hl]⟩ h4
  · simp only [validateQuestionValue, hq]
    decide
  · simp only [validateQuestionValue, hq]
    decide
  · simp only [validateQuestionValue, hq]
    decide

/-- C2 amended witness at a concrete phone question. -/
theorem c2_phone_validation_amended_witness :
    (validateQuestionValue { id := "p", type := QType.phone }
      "081234567890123").isSome = true ∧
    validateQuestionValue { id := "p", type := QType.phone }
      "0812345678" = none := by
  have h := c2_phone_validation_amended { id := "p", type := QType.phone }
    "081234567890123" rfl
  exact ⟨h.1 (by decide), h.2.2.2.1⟩

/-- Four optional text questions for the C3 navigation scenario. -/
def c3Questions : List Question :=
  [{ id := "q0", type := .text }, { id := "q1", type := .text },
   { id := "q2", type := .text }, { id := "q3", type := .text }]

/-- The wizard state right after the C3 form loads. -/
def c3Start : WizardState :=
  { questions := c3Questions, formData := initialData c3Questions,
    validationErrors := [], currentQuestionIndex := 0 }

/-- The state after advancing three times (reaching index 3) and pressing
previous twice (returning to index 1). -/
def c3AfterBack : WizardState :=
  handlePrevQuestion (handlePrevQuestion
    (handleNextQuestion (handleNextQuestion (handleNextQuestion c3Start))))

/-- C3 counterexample: the wizard state holds no high-water mark; after
reaching index 3 and going back twice to index 1, clicking the progress
dot for index 3 is a no-op, so no forward affordance to index 3 exists. -/
theorem c3_high_water_counterexample :
    (handleNextQuestion (handleNextQuestion
      (handleNextQuestion c3Start))).currentQuestionIndex = 3 ∧
    c3AfterBack.currentQuestionIndex = 1 ∧
    dotClick c3AfterBack 3 = c3AfterBack ∧
    (dotClick c3AfterBack 3).currentQuestionIndex ≠ 3 := by
  decide

/-- C3 amended: the navigation state keeps only the current index (no
high-water mark); a progress dot navigates exactly to indices strictly
below the current one, and such navigation never re-runs validation
(errors and answers are untouched); dots at or above the current index do
nothing, so after backtracking from index 3 to index 1 the affordance to
index 3 is inert. -/
theorem c3_high_water_amended (s : WizardState) (i : Nat) :
    (i < s.currentQuestionIndex →
      (dotClick s i).currentQuestionIndex = i ∧
      (dotClick s i).validationErrors = s.validationErrors ∧
      (dotClick s i).formData = s.formData) ∧
    (¬ i < s.currentQuestionIndex → dotClick s i = s) := by
  constructor
  · intro hlt
    unfold dotClick
    rw [if_pos hlt]
    exact ⟨rfl, rfl, rfl⟩
  · intro hge
    unfold dotClick
    rw [if_neg hge]

/-- C3 amended witness in the concrete backtracked state. -/
theorem c3_high_water_amended_witness :
    (dotClick c3AfterBack 0).currentQuestionIndex = 0 ∧
    dotClick c3AfterBack 3 = c3AfterBack := by
  exact ⟨((c3_high_water_amended c3AfterBack 0).1 (by decide)).1,
         (c3_high_water_amended c3AfterBack 3).2 (by decide)⟩

/-- C4 counterexample: with the synonym option Other selected, entering
the free text consisting of the letter a followed by a space stores the
trimmed encoding, not the claimed label-colon-space-text string, and the
round trip returns the trimmed text rather than the entered text. -/
theorem c4_other_roundtrip_counterexample :
    findOtherOption ["A", "Other"] = some "Other" ∧
    handleOtherTextChange "Other" "a " = "Other: a" ∧
    handleOtherTextChange "Other" "a " ≠ "Other" ++ ": " ++ "a " ∧
    getOtherText "Other" ["Other" ++ ": " ++ "a "] = "a" := by
  refine ⟨by decide, by decide, by decide, by decide⟩

/-- C4 amended: when the option list contains an other synonym option,
entering free text with no surrounding whitespace and at least one
character stores the answer as the option label, a colon and a space,
then the text; clearing the text (any all-whitespace input) reverts the
stored answer to the bare label; and re-parsing the stored value recovers
exactly the entered text. -/
theorem c4_other_roundtrip_amended (options : List String)
    (otherOption x : String)
    (hopt : findOtherOption options = some otherOption)
    (hx : jsTrim x = x) (hne : x ≠ "") :
    handleOtherTextChange otherOption x = otherOption ++ ": " ++ x ∧
    (∀ t, jsTrim t = "" → handleOtherTextChange otherOption t = otherOption) ∧
    getOtherText otherOption [handleOtherTextChange otherOption x] = x := by
  have hstore : handleOtherTextChange otherOption x
      = otherOption ++ ": " ++ x := by
    unfold handleOtherTextChange
    rw [hx, if_pos hne]
  have hdata : (otherOption ++ ": " ++ x).data
      = (otherOption.data ++ [':']) ++ (' ' :: x.data) := by
    rw [String.data_append, String.data_append]
    simp
  have hdata2 : (otherOption ++ ":").data = otherOption.data ++ [':'] := by
    rw [String.data_append]
  have hsw : strStartsWith (otherOption ++ ": " ++ x) (otherOption ++ ":")
      = true := by
    unfold strStartsWith
    rw [decide_eq_true_eq, hdata, hdata2]
    exact List.take_left _ _
  have hdrop : (otherOption ++ ": " ++ x).data.drop (otherOption.length + 1)
      = ' ' :: x.data := by
    rw [hdata, string_length_data]
    have hl : otherOption.data.length + 1 = (otherOption.data ++ [':']).length := by
      simp
    rw [hl]
    exact List.drop_left _ _
  have hxd : trimChars x.data = x.data := by
    have hc := congrArg String.data hx
    unfold jsTrim at hc
    exact hc
  refine ⟨hstore, ?_, ?_⟩
  · intro t ht
    unfold handleOtherTextChange
    rw [ht]
    simp
  · rw [hstore]
    unfold getOtherText
    have hfind : List.find? (fun v => strStartsWith v (otherOption ++ ":"))
        [otherOption ++ ": " ++ x] = some (otherOption ++ ": " ++ x) := by
      simp [List.find?_singleton, hsw]
    rw [hfind]
    apply String.ext
    show trimChars ((otherOption ++ ": " ++ x).data.drop (otherOption.length + 1))
      = x.data
    rw [hdrop, trimChars_cons_space, hxd]

/-- C4 amended witness with the free text X. -/
theorem c4_other_roundtrip_amended_witness :
    handleOtherTextChange "Other" "X" = "Other" ++ ": " ++ "X" ∧
    getOtherText "Other" [handleOtherTextChange "Other" "X"] = "X" := by
  have h := c4_other_roundtrip_amended ["A", "Other"] "Other" "X"
    (by decide) (by decide) (by decide)
  exact ⟨h.1, h.2.2⟩

end FormApp
